import Mathlib

/-!
Verification of the grun build-cache decision engine against its source.

The Go source (main.go) is embedded shallowly: file contents are byte lists,
system calls and external subprocesses are supplied by an explicit environment
record, and each Go function becomes a pure Lean function translated
statement by statement from the source.
-/

set_option maxRecDepth 8000

namespace Grun

namespace SHA256

/-- Right rotation of a 32-bit word, on Nat with explicit reduction mod 2^32. -/
def rotr (n x : Nat) : Nat := ((x >>> n) ||| (x <<< (32 - n))) % (2 ^ 32)

/-- Logical right shift. -/
def shr (n x : Nat) : Nat := x >>> n

/-- Upper-case sigma-0 function of the compression rounds. -/
def bigSigma0 (x : Nat) : Nat := (rotr 2 x) ^^^ (rotr 13 x) ^^^ (rotr 22 x)

/-- Upper-case sigma-1 function of the compression rounds. -/
def bigSigma1 (x : Nat) : Nat := (rotr 6 x) ^^^ (rotr 11 x) ^^^ (rotr 25 x)

/-- Lower-case sigma-0 function of the message schedule. -/
def smallSigma0 (x : Nat) : Nat := (rotr 7 x) ^^^ (rotr 18 x) ^^^ (shr 3 x)

/-- Lower-case sigma-1 function of the message schedule. -/
def smallSigma1 (x : Nat) : Nat := (rotr 17 x) ^^^ (rotr 19 x) ^^^ (shr 10 x)

/-- Choice function: bitwise if-then-else. -/
def ch (x y z : Nat) : Nat := (x &&& y) ^^^ ((x ^^^ 0xffffffff) &&& z)

/-- Majority function. -/
def maj (x y z : Nat) : Nat := (x &&& y) ^^^ (x &&& z) ^^^ (y &&& z)

/-- Round constants of SHA-256. -/
def K : List Nat :=
  [1116352408, 1899447441, 3049323471, 3921009573, 961987163, 1508970993,
   2453635748, 2870763221, 3624381080, 310598401, 607225278, 1426881987,
   1925078388, 2162078206, 2614888103, 3248222580, 3835390401, 4022224774,
   264347078, 604807628, 770255983, 1249150122, 1555081692, 1996064986,
   2554220882, 2821834349, 2952996808, 3210313671, 3336571891, 3584528711,
   113926993, 338241895, 666307205, 773529912, 1294757372, 1396182291,
   1695183700, 1986661051, 2177026350, 2456956037, 2730485921, 2820302411,
   3259730800, 3345764771, 3516065817, 3600352804, 4094571909, 275423344,
   430227734, 506948616, 659060556, 883997877, 958139571, 1322822218,
   1537002063, 1747873779, 1955562222, 2024104815, 2227730452, 2361852424,
   2428436474, 2756734187, 3204031479, 3329325298]

/-- Initial hash state of SHA-256. -/
def H0 : List Nat :=
  [1779033703, 3144134277, 1013904242, 2773480762,
   1359893119, 2600822924, 528734635, 1541459225]

/-- Big-endian encoding of the 64-bit message bit length. -/
def lenBytes8 (n : Nat) : List Nat :=
  [(n >>> 56) % 256, (n >>> 48) % 256, (n >>> 40) % 256, (n >>> 32) % 256,
   (n >>> 24) % 256, (n >>> 16) % 256, (n >>> 8) % 256, n % 256]

/-- Standard SHA-256 padding: a 0x80 byte, zeros up to 56 mod 64, then the bit
length of the message. -/
def padMessage (msg : List Nat) : List Nat :=
  let len := msg.length
  let zeros := (119 - len % 64) % 64
  msg ++ 0x80 :: List.replicate zeros 0 ++ lenBytes8 (8 * len)

/-- Group bytes into big-endian 32-bit words. -/
def toWords : List Nat → List Nat
  | b0 :: b1 :: b2 :: b3 :: rest =>
      ((b0 <<< 24) ||| (b1 <<< 16) ||| (b2 <<< 8) ||| b3) :: toWords rest
  | _ => []

/-- Split a byte list into 64-byte blocks; the fuel bounds the number of blocks
and is structurally consumed so the function reduces in the kernel. -/
def chunks64Aux : Nat → List Nat → List (List Nat)
  | 0, _ => []
  | _, [] => []
  | fuel + 1, l => l.take 64 :: chunks64Aux fuel (l.drop 64)

/-- Split a byte list into 64-byte blocks. -/
def chunks64 (l : List Nat) : List (List Nat) := chunks64Aux l.length l

/-- Append one extended word of the message schedule. -/
def scheduleStep (w : List Nat) : List Nat :=
  let n := w.length
  let wi := (smallSigma1 (w.getD (n - 2) 0) + w.getD (n - 7) 0 +
             smallSigma0 (w.getD (n - 15) 0) + w.getD (n - 16) 0) % (2 ^ 32)
  w ++ [wi]

/-- Extend the 16 block words to the 64-entry message schedule. -/
def buildSchedule (w16 : List Nat) : List Nat :=
  (List.range 48).foldl (fun w _ => scheduleStep w) w16

/-- One compression round on the state [a, b, c, d, e, f, g, h]. -/
def round (st : List Nat) (ki wi : Nat) : List Nat :=
  match st with
  | [a, b, c, d, e, f, g, h] =>
      let t1 := (h + bigSigma1 e + ch e f g + ki + wi) % (2 ^ 32)
      let t2 := (bigSigma0 a + maj a b c) % (2 ^ 32)
      [(t1 + t2) % (2 ^ 32), a, b, c, (d + t1) % (2 ^ 32), e, f, g]
  | _ => st

/-- Compress one 64-byte block into the running hash state. -/
def compressBlock (h : List Nat) (block : List Nat) : List Nat :=
  let w := buildSchedule (toWords block)
  let st := (K.zip w).foldl (fun st kw => round st kw.1 kw.2) h
  (h.zip st).map (fun p => (p.1 + p.2) % (2 ^ 32))

/-- Big-endian bytes of a 32-bit word. -/
def word4bytes (w : Nat) : List Nat :=
  [(w >>> 24) % 256, (w >>> 16) % 256, (w >>> 8) % 256, w % 256]

/-- SHA-256 digest of a byte sequence, as the list of its 32 bytes. -/
def sum256 (msg : List Nat) : List Nat :=
  let hs := (chunks64 (padMessage msg)).foldl compressBlock H0
  (hs.map word4bytes).flatten

end SHA256

/-- UTF-8 encoding of a single character. -/
def utf8Bytes (c : Char) : List Nat :=
  let n := c.toNat
  if n < 0x80 then [n]
  else if n < 0x800 then [0xC0 ||| (n >>> 6), 0x80 ||| (n &&& 0x3F)]
  else if n < 0x10000 then
    [0xE0 ||| (n >>> 12), 0x80 ||| ((n >>> 6) &&& 0x3F), 0x80 ||| (n &&& 0x3F)]
  else
    [0xF0 ||| (n >>> 18), 0x80 ||| ((n >>> 12) &&& 0x3F),
     0x80 ||| ((n >>> 6) &&& 0x3F), 0x80 ||| (n &&& 0x3F)]

/-- UTF-8 bytes of a string, as handed to the hash in the Go source. -/
def strBytes (s : String) : List Nat := (s.data.map utf8Bytes).flatten

/-- Lower-case hexadecimal digit for a value below 16. -/
def hexDigit (n : Nat) : Char := if n < 10 then Char.ofNat (48 + n) else Char.ofNat (87 + n)

/-- Two hexadecimal digits of one byte. -/
def hexByte (b : Nat) : List Char := [hexDigit ((b / 16) % 16), hexDigit (b % 16)]

/-- Hexadecimal encoding of a byte list, as in hex.EncodeToString. -/
def hexEncode (bs : List Nat) : String := String.mk ((bs.map hexByte).flatten)

namespace Filepath

/-- Last path element after trailing separators are dropped, as filepath.Base:
empty input gives a dot and an all-separator input gives the separator. -/
def base (p : String) : String :=
  if p = "" then "."
  else
    let cs := (p.data.reverse.dropWhile (fun c => c = '/')).reverse
    if cs = [] then "/"
    else String.mk (cs.reverse.takeWhile (fun c => c ≠ '/')).reverse

/-- Scan of the reversed character list used by the extension function:
collects the suffix until it meets a dot or a separator. -/
def extAux : List Char → List Char → String
  | [], _ => ""
  | c :: rest, acc =>
    if c = '/' then ""
    else if c = '.' then String.mk ('.' :: acc)
    else extAux rest (c :: acc)

/-- Suffix beginning at the final dot in the final path element, as
filepath.Ext; empty when the last element has no dot. -/
def ext (p : String) : String := extAux p.data.reverse []

/-- Directory part of a path, as filepath.Dir: everything before the last
element with trailing separators cleaned away. -/
def dir (p : String) : String :=
  let pre := (p.data.reverse.dropWhile (fun c => c ≠ '/')).reverse
  let cleaned := (pre.reverse.dropWhile (fun c => c = '/')).reverse
  if cleaned = [] then (if p.data.head? = some '/' then "/" else ".") else String.mk cleaned

/-- Join of two path elements with the separator, as filepath.Join on two
already-clean elements. -/
def join (a b : String) : String := if a = "" then b else a ++ "/" ++ b

end Filepath

deriving instance DecidableEq for Except

/-- Result of an os.Stat call: success carrying the file's modification time,
a does-not-exist error, or any other error. -/
inductive StatRes where
  | ok (modTime : Int)
  | notExist
  | errOther
deriving DecidableEq, Repr

/-- Test used for the os.IsNotExist check on a stat error. -/
def StatRes.isNotExist : StatRes → Bool
  | .notExist => true
  | _ => false

/-- Test for a nil stat error, the err == nil comparisons of the source. -/
def StatRes.isOk : StatRes → Bool
  | .ok _ => true
  | _ => false

/-- External command the builder is about to run: the argument vector and the
optional working directory set on it. -/
structure Cmd where
  args : List String
  dir : Option String
deriving DecidableEq, Repr

/-- Result of running the compiled artifact: either it ran and exited with the
given status code, or it could not be spawned at all. -/
inductive RunResult where
  | exited (code : Nat)
  | spawnError
deriving DecidableEq, Repr

/-- Ambient process environment of one grun invocation: configuration inputs,
the filesystem as seen through the system calls the program makes, and the
results of the external subprocesses it spawns. -/
structure Env where
  /-- Value of the cache-dir flag, the empty string when unset. -/
  cacheDirFlag : String
  /-- Value of the GRUN_CACHE environment variable, the empty string when unset. -/
  grunCacheEnv : String
  /-- Result of os.UserHomeDir, none when it fails. -/
  homeDir : Option String
  /-- Result of filepath.Abs, which resolves against the working directory. -/
  abs : String → Except Unit String
  /-- Result of os.Stat on each path. -/
  stat : String → StatRes
  /-- Bytes a full read of each path yields, or a read error. -/
  read : String → Except Unit (List Nat)
  /-- Fresh path os.CreateTemp allocates, or its failure. -/
  createTemp : Except Unit String
  /-- Whether the write to the freshly created temp file succeeds. -/
  tempWriteOk : Bool
  /-- Whether os.MkdirAll on the cache directory succeeds. -/
  mkdirOk : Bool
  /-- Outcome of the external go build command: none on success, the
  diagnostic on failure. -/
  runBuild : Cmd → Option String
  /-- Outcome of spawning the cached artifact with the given arguments. -/
  runBinary : String → List String → RunResult

/-- Default cache directory constant of the source. -/
def defaultCacheDir : String := ".cache/grun"

/-- Cache directory resolution of the source: the flag, then the GRUN_CACHE
variable, then a default under the home directory, with a relative fallback
when the home directory cannot be determined. -/
def getCacheDir (env : Env) : String :=
  if env.cacheDirFlag ≠ "" then env.cacheDirFlag
  else if env.grunCacheEnv ≠ "" then env.grunCacheEnv
  else
    match env.homeDir with
    | none => defaultCacheDir
    | some homeDir => Filepath.join homeDir defaultCacheDir

/-- Cache key derivation of the source: the cache directory joined with the
base name of the source file (a .go extension stripped), a dash, and the first
16 hex characters of the SHA-256 of the absolute path. -/
def getCachedBinaryPath (env : Env) (sourceFile : String) : Except Unit String :=
  match env.abs sourceFile with
  | .error e => .error e
  | .ok absPath =>
    let hashStr := String.mk ((hexEncode (SHA256.sum256 (strBytes absPath))).data.take 16)
    let cacheDir := getCacheDir env
    let binaryName := Filepath.base sourceFile
    let extStr := Filepath.ext binaryName
    let binaryName := if extStr = ".go" then binaryName.dropRight extStr.length else binaryName
    .ok (Filepath.join cacheDir (binaryName ++ "-" ++ hashStr))

/-- Go.sum block of the staleness check: an existing go.sum strictly newer
than the cached binary forces recompilation; a stat failure on it is silently
skipped. -/
def goSumCheck (env : Env) (sourceDir : String) (cachedTime : Int) : Bool × Option Unit :=
  match env.stat (Filepath.join sourceDir "go.sum") with
  | .ok sumTime => if cachedTime < sumTime then (true, none) else (false, none)
  | _ => (false, none)

/-- Manifest blocks of the staleness check, run in source order: first the
go.mod timestamp comparison, then the go.sum one. -/
def manifestCheck (env : Env) (sourceDir : String) (cachedTime : Int) : Bool × Option Unit :=
  match env.stat (Filepath.join sourceDir "go.mod") with
  | .ok modTime =>
    if cachedTime < modTime then (true, none) else goSumCheck env sourceDir cachedTime
  | _ => goSumCheck env sourceDir cachedTime

/-- Staleness check of the source. The pair mirrors the Go (bool, error)
return: the flag says whether recompilation is needed and the option is the
returned error value. The source stats the cached binary once for the
os.IsNotExist check and once more for its modification time. -/
def needsRecompile (env : Env) (sourceFile cachedBinary : String) : Bool × Option Unit :=
  if (env.stat cachedBinary).isNotExist then (true, none)
  else
    match env.stat cachedBinary with
    | .notExist => (true, some ())
    | .errOther => (true, some ())
    | .ok cachedTime =>
      match env.stat sourceFile with
      | .notExist => (true, some ())
      | .errOther => (true, some ())
      | .ok sourceTime =>
        if cachedTime < sourceTime then (true, none)
        else
          match env.abs sourceFile with
          | .error _ => (true, some ())
          | .ok absSourceFile => manifestCheck env (Filepath.dir absSourceFile) cachedTime

/-- Shebang detection of the source: opens the file and reads the first two
bytes into a zeroed two-byte buffer. An empty file yields io.EOF, treated as
no shebang; a one-byte file leaves the second buffer byte zero. -/
def hasShebang (env : Env) (filePath : String) : Except Unit Bool :=
  match env.read filePath with
  | .error e => .error e
  | .ok [] => .ok false
  | .ok [b] => .ok (b == 35 && 0 == 33)
  | .ok (b1 :: b2 :: _) => .ok (b1 == 35 && b2 == 33)

/-- Byte index of the first newline, as strings.Index with none standing for
the -1 not-found result. -/
def stringsIndexNewline : List Nat → Option Nat
  | [] => none
  | b :: rest => if b = 10 then some 0 else (stringsIndexNewline rest).map (fun i => i + 1)

/-- Shebang stripping of the source. The first component is the Go return
value, the temp path with the content written to it or an error; the second
lists the temporary files that still exist when the function returns (a failed
write removes the fresh temp file before returning). -/
def createTempFileWithoutShebang (env : Env) (sourceFile : String) :
    Except Unit (String × List Nat) × List String :=
  match env.read sourceFile with
  | .error _ => (.error (), [])
  | .ok data =>
    let lines :=
      match stringsIndexNewline data with
      | some idx => data.drop (idx + 1)
      | none => data
    match env.createTemp with
    | .error _ => (.error (), [])
    | .ok tmpPath =>
      if env.tempWriteOk then (.ok (tmpPath, lines), [tmpPath])
      else (.error (), [])

/-- Effect of os.Remove on the collection of live files. -/
def removeFile (live : List String) (p : String) : List String :=
  live.filter (fun q => q != p)

/-- Hint text the source appends to a failed build when no go.mod is present. -/
def remediationHint (sourceDir : String) : String :=
  "\n\nHint: If your script uses external dependencies, initialize a Go module:\n  cd "
    ++ sourceDir ++ "\n  go mod init <module-name>\n  go get <dependencies>"

/-- Error message of a failed build without go.mod: the raw diagnostic wrapped
in the build-failed prefix with the remediation hint appended. -/
def hintedBuildError (diag sourceDir : String) : String :=
  "build failed: " ++ diag ++ remediationHint sourceDir

/-- Observable outcome of compileGoFile: the returned error value, the build
command that was run (none when an earlier error prevented reaching it), the
temporary files still existing on return, and the temp path with the stripped
content written for a shebang source. -/
structure CompileTrace where
  result : Except String Unit
  cmdRun : Option Cmd
  tempsLive : List String
  tempWritten : Option (String × List Nat)
deriving DecidableEq, Repr

/-- Command selection and run of the external build, the shared tail of
compileGoFile: the go.mod check picks between a whole-directory build with the
working directory set to the source directory and an explicit-file build, and
a failure without go.mod gets the remediation hint appended. -/
def finishCompile (env : Env) (outputPath sourceDir : String)
    (hasShebangLine : Bool) (fileToCompile : String) : CompileTrace :=
  let goModPath := Filepath.join sourceDir "go.mod"
  let hasGoMod := (env.stat goModPath).isOk
  let cmd : Cmd :=
    if hasGoMod then
      if hasShebangLine then
        { args := ["go", "build", "-o", outputPath, fileToCompile], dir := some sourceDir }
      else
        { args := ["go", "build", "-o", outputPath], dir := some sourceDir }
    else
      { args := ["go", "build", "-o", outputPath, fileToCompile], dir := none }
  let result : Except String Unit :=
    match env.runBuild cmd with
    | none => .ok ()
    | some diag => if hasGoMod then .error diag else .error (hintedBuildError diag sourceDir)
  { result := result, cmdRun := some cmd, tempsLive := [], tempWritten := none }

/-- Builder of the source: resolves the absolute path, detects a shebang,
strips it into a temporary file whose deferred cleanup runs on every exit
path, and dispatches the external build per the go.mod check. -/
def compileGoFile (env : Env) (sourceFile outputPath : String) : CompileTrace :=
  match env.abs sourceFile with
  | .error _ =>
    { result := .error "failed to get absolute path", cmdRun := none,
      tempsLive := [], tempWritten := none }
  | .ok absSourceFile =>
    let sourceDir := Filepath.dir absSourceFile
    match hasShebang env absSourceFile with
    | .error _ =>
      { result := .error "failed to check for shebang", cmdRun := none,
        tempsLive := [], tempWritten := none }
    | .ok hasShebangLine =>
      if hasShebangLine then
        match createTempFileWithoutShebang env absSourceFile with
        | (.error _, live) =>
          { result := .error "failed to create temporary file", cmdRun := none,
            tempsLive := live, tempWritten := none }
        | (.ok (tmpPath, content), live) =>
          let tr := finishCompile env outputPath sourceDir true tmpPath
          { result := tr.result, cmdRun := tr.cmdRun,
            tempsLive := removeFile live tmpPath,
            tempWritten := some (tmpPath, content) }
      else
        finishCompile env outputPath sourceDir false absSourceFile

/-- Exit code of the orchestrator in main, from the source-file existence check
onwards. When the artifact runs, a zero status makes cmd.Run return nil so
main falls through and exits zero, a nonzero status is an exec.ExitError whose
code main passes to os.Exit, and a spawn failure is printed and exits one. -/
def mainExit (env : Env) (sourceFile : String) (args : List String) : Nat :=
  if (env.stat sourceFile).isNotExist then 1
  else if !env.mkdirOk then 1
  else
    match getCachedBinaryPath env sourceFile with
    | .error _ => 1
    | .ok cachedBinary =>
      match needsRecompile env sourceFile cachedBinary with
      | (_, some _) => 1
      | (needsCompile, none) =>
        let built : Except String Unit :=
          if needsCompile then (compileGoFile env sourceFile cachedBinary).result
          else .ok ()
        match built with
        | .error _ => 1
        | .ok _ =>
          match env.runBinary cachedBinary args with
          | .exited code => code
          | .spawnError => 1

/-- Builder decision table exactly as the spec states it, row by row: the
compilation unit (an explicit file argument, or none for a whole-directory
build) and the working directory, per directive and manifest presence. -/
def specTableCmd (directive manifest : Bool)
    (strippedTemp absSource outputPath sourceDir : String) : Cmd :=
  match directive, manifest with
  | false, false => { args := ["go", "build", "-o", outputPath, absSource], dir := none }
  | true, false => { args := ["go", "build", "-o", outputPath, strippedTemp], dir := none }
  | false, true => { args := ["go", "build", "-o", outputPath], dir := some sourceDir }
  | true, true => { args := ["go", "build", "-o", outputPath, strippedTemp], dir := some sourceDir }

/-- Spec-side digest of the key: the first 16 hexadecimal characters of the
cryptographic digest of the UTF-8 bytes of the absolute path. -/
def specDigest16 (absPath : String) : String :=
  String.mk ((hexEncode (SHA256.sum256 (strBytes absPath))).data.take 16)

/-- Lower-case hexadecimal characters. -/
def hexChars : List Char := "0123456789abcdef".data

/-- Success test on the key derivation result. -/
def keyOk : Except Unit String → Bool
  | .ok _ => true
  | .error _ => false

/-- Simple concrete environment the evaluation witnesses build on. -/
def baseEnv : Env where
  cacheDirFlag := "/cache"
  grunCacheEnv := ""
  homeDir := some "/home/u"
  abs := fun p => .ok (Filepath.join "/w" p)
  stat := fun _ => .ok 0
  read := fun _ => .ok []
  createTemp := .ok "/tmp/grun_script.go_1.go"
  tempWriteOk := true
  mkdirOk := true
  runBuild := fun _ => none
  runBinary := fun _ _ => .exited 0

/-- Environment whose script file is a one-byte file. -/
def c8Env : Env :=
  { baseEnv with read := fun _ => .ok [35] }

/-- Environment whose script file is three bytes with no line terminator. -/
def c4Env : Env := { baseEnv with read := fun _ => .ok [35, 33, 97] }

/-- Environment whose script file is a shebang line followed by one byte. -/
def c4WitnessEnv : Env := { baseEnv with read := fun _ => .ok [35, 33, 10, 97] }

/-- Environment of a shebang script in a directory with a manifest present. -/
def c2Env : Env := { baseEnv with read := fun _ => .ok [35, 33, 10, 97] }

/-- Environment of a plain script with no manifest anywhere and a failing
external build. -/
def c7Env : Env :=
  { baseEnv with stat := fun _ => .notExist, read := fun _ => .ok [112], runBuild := fun _ => some "undefined: foo" }

/-- Stat map of the staleness witness: every relevant timestamp ties with the
cached artifact's and the lock file is absent. -/
def c1Stat : String → StatRes := fun p => if p = "/w/go.sum" then .notExist else .ok 5

/-- Environment of the staleness witness. -/
def c1Env : Env := { baseEnv with stat := c1Stat }

/-- Environment whose artifact exits with status seven. -/
def c5Env : Env := { baseEnv with runBinary := fun _ _ => .exited 7 }

/-- Cache key the orchestrator computes in the c5 witness environment. -/
def c5cb : String :=
  match getCachedBinaryPath c5Env "script.go" with
  | .ok k => k
  | .error _ => ""

/-- Environment in which each of the two spellings of a symlinked file
resolves to its own absolute path: filepath.Abs is purely syntactic and never
follows symlinks, so the two spellings keep distinct absolute paths even
though they name the same underlying file. -/
def symEnv : Env := { baseEnv with abs := fun p => .ok p }

/-- Environment agreeing with baseEnv on resolution and configuration while
every file is missing and unreadable. -/
def c10EnvA : Env := { baseEnv with stat := fun _ => .notExist, read := fun _ => .error () }

/-! Helper lemmas shared by several claims. -/

/-- Failure of the stripping step leaves no temporary file behind. -/
theorem createTemp_error_live (env : Env) (src : String) (e : Unit) (live : List String)
    (h : createTempFileWithoutShebang env src = (.error e, live)) : live = [] := by
  unfold createTempFileWithoutShebang at h
  rcases hr : env.read src with _ | data
  · rw [hr] at h
    exact (Prod.mk.injEq .. ▸ h).2.symm
  · rw [hr] at h
    rcases hc : env.createTemp with _ | tmp
    · simp only [hc] at h
      exact (Prod.mk.injEq .. ▸ h).2.symm
    · simp only [hc] at h
      by_cases hw : env.tempWriteOk
      · simp [hw] at h
      · simp only [hw, if_neg, Bool.false_eq_true, if_false] at h
        exact (Prod.mk.injEq .. ▸ h).2.symm

/-- Success of the stripping step leaves exactly the fresh temp file live. -/
theorem createTemp_ok_live (env : Env) (src : String) (tmp : String) (content : List Nat)
    (live : List String)
    (h : createTempFileWithoutShebang env src = (.ok (tmp, content), live)) : live = [tmp] := by
  unfold createTempFileWithoutShebang at h
  rcases hr : env.read src with _ | data
  · rw [hr] at h
    simp at h
  · rw [hr] at h
    rcases hc : env.createTemp with _ | t
    · simp only [hc] at h
      simp at h
    · simp only [hc] at h
      by_cases hw : env.tempWriteOk
      · simp only [hw, if_true] at h
        have h1 := (Prod.mk.injEq .. ▸ h).1
        have h2 := (Prod.mk.injEq .. ▸ h).2
        have : t = tmp := by
          cases h1
          rfl
        rw [← h2, this]
      · simp [hw] at h

/-- Removing the only live file empties the live list. -/
theorem removeFile_single (p : String) : removeFile [p] p = [] := by
  simp [removeFile]

/-- Go.sum block never produces an error value. -/
theorem goSumCheck_no_error (env : Env) (sourceDir : String) (cachedTime : Int) :
    (goSumCheck env sourceDir cachedTime).2 = none := by
  unfold goSumCheck
  repeat' split
  all_goals rfl

/-- Manifest blocks never produce an error value: a missing or unreadable
manifest is skipped silently. -/
theorem manifestCheck_no_error (env : Env) (sourceDir : String) (cachedTime : Int) :
    (manifestCheck env sourceDir cachedTime).2 = none := by
  unfold manifestCheck
  repeat' split
  all_goals first
    | rfl
    | exact goSumCheck_no_error env sourceDir cachedTime

/-- C9: whenever the staleness check returns a non-nil error it also reports
stale, so needsRecompile never returns a false flag together with an error and
an error during the check can never cause a cached artifact to be reused. -/
theorem c9_needsRecompile_error_stale (env : Env) (sourceFile cachedBinary : String) :
    (needsRecompile env sourceFile cachedBinary).1 = true ∨
    (needsRecompile env sourceFile cachedBinary).2 = none := by
  unfold needsRecompile
  repeat' split
  all_goals first
    | simp
    | exact Or.inr (manifestCheck_no_error env _ _)

/-- C6: every temporary file created for directive stripping is gone on every
exit path of the build; after compileGoFile returns, including when the
external compiler fails, no temporary file is still live. -/
theorem c6_temp_cleanup (env : Env) (sourceFile outputPath : String) :
    (compileGoFile env sourceFile outputPath).tempsLive = [] := by
  unfold compileGoFile
  rcases ha : env.abs sourceFile with _ | a
  · rfl
  · dsimp only
    rcases hs : hasShebang env a with _ | sb
    · rfl
    · dsimp only
      rcases sb
      · simp only [Bool.false_eq_true, if_false]
        unfold finishCompile
        rfl
      · simp only [if_true]
        rcases hct : createTempFileWithoutShebang env a with ⟨res, live⟩
        rcases res with e | ⟨tmp, content⟩
        · simpa using createTemp_error_live env a e live hct
        · have : live = [tmp] := createTemp_ok_live env a tmp content live hct
          simp [this, removeFile_single]

/-- First two bytes of a byte list decide the shebang test. -/
theorem hasShebang_eq (env : Env) (p : String) (data : List Nat)
    (h : env.read p = .ok data) :
    hasShebang env p = .ok (decide (data.take 2 = [35, 33])) := by
  unfold hasShebang
  rw [h]
  match data with
  | [] => simp
  | [b] =>
    simp only [List.take, decide_eq_true_eq]
    have : (decide ([b] = [35, 33])) = false := by simp
    rw [this]
    simp
  | b1 :: b2 :: rest =>
    simp only [List.take_succ_cons, List.take_zero]
    by_cases h1 : b1 = 35 <;> by_cases h2 : b2 = 33 <;>
      simp [h1, h2, List.take]

/-- C8: the directive detector depends only on the first two bytes and returns
true exactly when they are the hash-bang marker; a file shorter than two bytes
yields false with a nil error rather than a failure. -/
theorem c8_hasShebang (env : Env) (p : String) (data : List Nat)
    (h : env.read p = .ok data) :
    hasShebang env p = .ok (decide (data.take 2 = [35, 33])) ∧
    (data.length < 2 → hasShebang env p = .ok false) ∧
    (∀ env2 data2, env2.read p = .ok data2 → data2.take 2 = data.take 2 →
      hasShebang env2 p = hasShebang env p) := by
  refine ⟨hasShebang_eq env p data h, ?_, ?_⟩
  · intro hlen
    rw [hasShebang_eq env p data h]
    match data, hlen with
    | [], _ => simp
    | [b], _ => simp
  · intro env2 data2 h2 htake
    rw [hasShebang_eq env p data h, hasShebang_eq env2 p data2 h2, htake]

/-- C8 witness: on a concrete one-byte file the detector returns false without
an error. -/
theorem c8_hasShebang_witness :
    hasShebang c8Env "script.go" = .ok false :=
  (c8_hasShebang c8Env "script.go" [35] rfl).2.1 (by decide)

/-! Claim C4: directive stripping. -/

/-- Index the newline scan returns on a newline-free prefix followed by a
newline. -/
theorem stringsIndexNewline_append (pre post : List Nat) (hpre : (10 : Nat) ∉ pre) :
    stringsIndexNewline (pre ++ 10 :: post) = some pre.length := by
  induction pre with
  | nil => simp [stringsIndexNewline]
  | cons b rest ih =>
    have hb : b ≠ 10 := fun hb => hpre (by simp [hb])
    have hrest : (10 : Nat) ∉ rest := fun hm => hpre (List.mem_cons_of_mem _ hm)
    simp [stringsIndexNewline, hb, ih hrest]

/-- Newline scan on newline-free content reports not found. -/
theorem stringsIndexNewline_none (data : List Nat) (h : (10 : Nat) ∉ data) :
    stringsIndexNewline data = none := by
  induction data with
  | nil => rfl
  | cons b rest ih =>
    have hb : b ≠ 10 := fun hb => h (by simp [hb])
    have hrest : (10 : Nat) ∉ rest := fun hm => h (List.mem_cons_of_mem _ hm)
    simp [stringsIndexNewline, hb, ih hrest]

/-- Dropping through the first newline leaves exactly the suffix. -/
theorem drop_after_newline (pre post : List Nat) :
    (pre ++ 10 :: post).drop (pre.length + 1) = post := by
  have h : pre ++ 10 :: post = (pre ++ [10]) ++ post := by simp
  have hlen : (pre ++ [10]).length = pre.length + 1 := by simp
  rw [h, ← hlen, List.drop_left]

/-- C4 counterexample: on a concrete source containing no line terminator the
temporary compiled unit receives the full original content, refuting the
claimed empty unit. -/
theorem c4_counterexample :
    (createTempFileWithoutShebang c4Env "script.go").1 =
      .ok ("/tmp/grun_script.go_1.go", [35, 33, 97]) ∧
    ([35, 33, 97] : List Nat) ≠ [] := ⟨rfl, by decide⟩

/-- C4 amended: directive stripping reads the full content and discards
everything up to and including the first line terminator; when the content
contains no line terminator it is left unchanged, so the temporary compiled
unit holds the entire original file rather than being empty. -/
theorem c4_strip_amended (env : Env) (src : String) (data : List Nat) (tmp : String)
    (hr : env.read src = .ok data) (hc : env.createTemp = .ok tmp)
    (hw : env.tempWriteOk = true) :
    (∀ pre post, data = pre ++ 10 :: post → (10 : Nat) ∉ pre →
      (createTempFileWithoutShebang env src).1 = .ok (tmp, post)) ∧
    ((10 : Nat) ∉ data → (createTempFileWithoutShebang env src).1 = .ok (tmp, data)) := by
  constructor
  · intro pre post hdata hpre
    unfold createTempFileWithoutShebang
    rw [hr]
    dsimp only
    rw [hdata, stringsIndexNewline_append pre post hpre, hc]
    dsimp only
    rw [hw]
    simp [drop_after_newline]
  · intro hno
    unfold createTempFileWithoutShebang
    rw [hr]
    dsimp only
    rw [stringsIndexNewline_none data hno, hc]
    dsimp only
    rw [hw]
    simp

/-- C4 amended witness: on a concrete shebang file exactly the bytes after the
first newline land in the temporary file. -/
theorem c4_strip_amended_witness :
    (createTempFileWithoutShebang c4WitnessEnv "script.go").1 =
      .ok ("/tmp/grun_script.go_1.go", [97]) :=
  (c4_strip_amended c4WitnessEnv "script.go" [35, 33, 10, 97] "/tmp/grun_script.go_1.go"
    rfl rfl rfl).1 [35, 33] [97] rfl (by decide)

/-! Reduction lemmas for the builder, shared by claims C2 and C7. -/

/-- Build tail leaves no temporary file live by itself. -/
theorem finishCompile_tempsLive (env : Env) (out d : String) (sb : Bool) (f : String) :
    (finishCompile env out d sb f).tempsLive = [] := rfl

/-- Build tail records no written temp content by itself. -/
theorem finishCompile_tempWritten (env : Env) (out d : String) (sb : Bool) (f : String) :
    (finishCompile env out d sb f).tempWritten = none := rfl

/-- Reduction of compileGoFile once the absolute path, the shebang test and,
for a shebang file, the stripping step are known. -/
theorem compileGoFile_run (env : Env) (src out a : String) (sb : Bool) (tmp : String)
    (content : List Nat)
    (ha : env.abs src = .ok a) (hsb : hasShebang env a = .ok sb)
    (htmp : sb = true → (createTempFileWithoutShebang env a).1 = .ok (tmp, content)) :
    (compileGoFile env src out).result =
      (finishCompile env out (Filepath.dir a) sb (if sb then tmp else a)).result ∧
    (compileGoFile env src out).cmdRun =
      (finishCompile env out (Filepath.dir a) sb (if sb then tmp else a)).cmdRun ∧
    (compileGoFile env src out).tempWritten =
      (if sb then some (tmp, content) else none) := by
  unfold compileGoFile
  rw [ha]
  dsimp only
  rw [hsb]
  dsimp only
  rcases sb
  · simp only [Bool.false_eq_true, if_false]
    simp [finishCompile_tempWritten]
  · simp only [if_true]
    rcases hct : createTempFileWithoutShebang env a with ⟨res, live⟩
    have hres : res = .ok (tmp, content) := by
      have := htmp rfl
      rw [hct] at this
      exact this
    rw [hres]
    exact ⟨rfl, rfl, rfl⟩

/-- Command the build tail runs, by the go.mod stat and the shebang flag. -/
theorem finishCompile_cmd (env : Env) (out d : String) (sb : Bool) (f : String) :
    (finishCompile env out d sb f).cmdRun =
      some (if (env.stat (Filepath.join d "go.mod")).isOk then
              (if sb then Cmd.mk ["go", "build", "-o", out, f] (some d)
               else Cmd.mk ["go", "build", "-o", out] (some d))
            else Cmd.mk ["go", "build", "-o", out, f] none) := by
  unfold finishCompile
  cases hgm : (env.stat (Filepath.join d "go.mod")).isOk <;> rcases sb <;> simp [hgm]

/-- Result the build tail returns, by the external build outcome and the
go.mod stat. -/
theorem finishCompile_result (env : Env) (out d : String) (sb : Bool) (f : String) (c : Cmd)
    (hc : (finishCompile env out d sb f).cmdRun = some c) :
    (finishCompile env out d sb f).result =
      (match env.runBuild c with
       | none => .ok ()
       | some diag =>
         if (env.stat (Filepath.join d "go.mod")).isOk then .error diag
         else .error (hintedBuildError diag d)) := by
  unfold finishCompile at hc ⊢
  cases hgm : (env.stat (Filepath.join d "go.mod")).isOk <;> rcases sb <;>
    simp only [hgm, if_true, if_false, Bool.false_eq_true, Option.some.injEq] at hc ⊢ <;>
    rw [← hc]

/-! Claims C2 and C7: build dispatch and failure messages. -/

/-- C2: the builder selects the compilation unit per the four-row decision
table: no directive and no manifest compiles the source alone; a directive
without manifest compiles the stripped temporary file alone; a manifest
without directive compiles the containing directory as a unit with the
working directory set there; both together compile the stripped temporary
file explicitly with the working directory set to the manifest's directory. -/
theorem c2_decision_table (env : Env) (src out a : String) (sb : Bool) (tmp : String)
    (content : List Nat)
    (ha : env.abs src = .ok a) (hsb : hasShebang env a = .ok sb)
    (htmp : sb = true → (createTempFileWithoutShebang env a).1 = .ok (tmp, content)) :
    (compileGoFile env src out).cmdRun =
      some (specTableCmd sb (env.stat (Filepath.join (Filepath.dir a) "go.mod")).isOk
        tmp a out (Filepath.dir a)) ∧
    (sb = true → (compileGoFile env src out).tempWritten = some (tmp, content)) := by
  obtain ⟨hres, hcmd, hwr⟩ := compileGoFile_run env src out a sb tmp content ha hsb htmp
  constructor
  · rw [hcmd, finishCompile_cmd]
    rcases sb <;>
      cases hgm : (env.stat (Filepath.join (Filepath.dir a) "go.mod")).isOk <;>
      simp [specTableCmd, hgm]
  · intro h
    rw [hwr, h]
    simp

/-- C2 witness: the directive-and-manifest row on a concrete environment; the
stripped temporary file is compiled explicitly with the working directory set
to the manifest's directory. -/
theorem c2_decision_table_witness :
    (compileGoFile c2Env "script.go" "/cache/out").cmdRun =
      some { args := ["go", "build", "-o", "/cache/out", "/tmp/grun_script.go_1.go"],
             dir := some "/w" } :=
  ((c2_decision_table c2Env "script.go" "/cache/out" "/w/script.go" true
    "/tmp/grun_script.go_1.go" [97] rfl rfl (fun _ => rfl)).1).trans (by decide)

/-- Hinted build error is never the raw diagnostic itself: the appended text
makes it strictly longer, so the hint genuinely augments the message. -/
theorem hintedBuildError_ne (diag d : String) : hintedBuildError diag d ≠ diag := by
  intro h
  have hlen := congrArg String.length h
  simp only [hintedBuildError, remediationHint, String.length_append] at hlen
  have h1 : 0 < ("build failed: " : String).length := by decide
  omega

/-- C7: a compilation failure without a manifest comes back augmented with the
remediation hint suggesting manifest initialization, and with a manifest
present the compiler diagnostic is surfaced verbatim with nothing appended. -/
theorem c7_build_error_hint (env : Env) (src out a : String) (sb : Bool) (tmp : String)
    (content : List Nat) (diag : String)
    (ha : env.abs src = .ok a) (hsb : hasShebang env a = .ok sb)
    (htmp : sb = true → (createTempFileWithoutShebang env a).1 = .ok (tmp, content)) :
    ∃ c, (compileGoFile env src out).cmdRun = some c ∧
      ((env.stat (Filepath.join (Filepath.dir a) "go.mod")).isOk = false →
        env.runBuild c = some diag →
        (compileGoFile env src out).result =
          .error (hintedBuildError diag (Filepath.dir a)) ∧
        hintedBuildError diag (Filepath.dir a) ≠ diag) ∧
      ((env.stat (Filepath.join (Filepath.dir a) "go.mod")).isOk = true →
        env.runBuild c = some diag →
        (compileGoFile env src out).result = .error diag) := by
  obtain ⟨hres, hcmd, hwr⟩ := compileGoFile_run env src out a sb tmp content ha hsb htmp
  have hcmdfin := finishCompile_cmd env out (Filepath.dir a) sb (if sb then tmp else a)
  have hresfin := finishCompile_result env out (Filepath.dir a) sb (if sb then tmp else a)
    _ hcmdfin
  refine ⟨_, hcmd.trans hcmdfin, ?_, ?_⟩
  · intro hgm hrb
    refine ⟨?_, hintedBuildError_ne diag (Filepath.dir a)⟩
    rw [hres, hresfin, hrb]
    simp [hgm]
  · intro hgm hrb
    rw [hres, hresfin, hrb]
    simp [hgm]

/-- C7 witness: on a concrete manifest-less failing build the surfaced error
is the hinted message. -/
theorem c7_build_error_hint_witness :
    (compileGoFile c7Env "script.go" "/cache/out").result =
      .error (hintedBuildError "undefined: foo" "/w") := by
  obtain ⟨c, hc, hno, hyes⟩ := c7_build_error_hint c7Env "script.go" "/cache/out"
    "/w/script.go" false "" [] "undefined: foo" rfl rfl (fun h => nomatch h)
  exact ((hno rfl rfl).1).trans (by decide)

/-! Claim C5: exit code propagation. -/

/-- Reduction of the orchestrator exit code to the artifact run outcome, once
the earlier pipeline stages are known to succeed. -/
theorem mainExit_run (env : Env) (src cb : String) (args : List String)
    (h0 : (env.stat src).isNotExist = false) (h1 : env.mkdirOk = true)
    (h2 : getCachedBinaryPath env src = .ok cb)
    (h3 : (needsRecompile env src cb).2 = none)
    (h4 : (needsRecompile env src cb).1 = true →
      (compileGoFile env src cb).result = .ok ()) :
    mainExit env src args =
      (match env.runBinary cb args with
       | .exited code => code
       | .spawnError => 1) := by
  unfold mainExit
  rw [h0, h1]
  simp only [Bool.false_eq_true, if_false, Bool.not_true, Bool.false_eq_true, if_false]
  rw [h2]
  dsimp only
  rcases hnr : needsRecompile env src cb with ⟨nc, e⟩
  rw [hnr] at h3 h4
  dsimp only at h3 h4
  subst h3
  dsimp only
  rcases nc
  · simp
  · rw [h4 rfl]
    simp

/-- C5: when the artifact is spawned successfully and exits with status n, the
orchestrator's own exit code is exactly n, so a nonzero artifact exit is never
collapsed into an internal error; a failure to spawn the artifact at all exits
with code one. -/
theorem c5_exit_code (env : Env) (src cb : String) (args : List String)
    (h0 : (env.stat src).isNotExist = false) (h1 : env.mkdirOk = true)
    (h2 : getCachedBinaryPath env src = .ok cb)
    (h3 : (needsRecompile env src cb).2 = none)
    (h4 : (needsRecompile env src cb).1 = true →
      (compileGoFile env src cb).result = .ok ()) :
    (∀ n, env.runBinary cb args = .exited n → mainExit env src args = n) ∧
    (env.runBinary cb args = .spawnError → mainExit env src args = 1) := by
  have hm := mainExit_run env src cb args h0 h1 h2 h3 h4
  constructor
  · intro n hn
    rw [hm, hn]
  · intro hn
    rw [hm, hn]

/-- C5 witness: a concrete artifact exiting with status seven makes the whole
invocation exit with code seven, not one. -/
theorem c5_exit_code_witness : mainExit c5Env "script.go" ["fail"] = 7 :=
  (c5_exit_code c5Env "script.go" c5cb ["fail"] rfl rfl rfl rfl
    (fun h => absurd h (by decide))).1 7 rfl

/-! Claim C1: the staleness decision. -/

/-- Go.sum block returns true exactly when an existing go.sum is strictly
newer than the cached artifact. -/
theorem goSumCheck_fst (env : Env) (d : String) (cT : Int) :
    (goSumCheck env d cT).1 = true ↔
      ∃ sT, env.stat (Filepath.join d "go.sum") = .ok sT ∧ cT < sT := by
  unfold goSumCheck
  rcases hs : env.stat (Filepath.join d "go.sum") with ⟨sT⟩ | ⟨⟩ | ⟨⟩ <;> simp [hs]
  split <;> simp_all

/-- Manifest blocks return true exactly when an existing go.mod or go.sum is
strictly newer than the cached artifact. -/
theorem manifestCheck_fst (env : Env) (d : String) (cT : Int) :
    (manifestCheck env d cT).1 = true ↔
      ((∃ mT, env.stat (Filepath.join d "go.mod") = .ok mT ∧ cT < mT) ∨
       (∃ sT, env.stat (Filepath.join d "go.sum") = .ok sT ∧ cT < sT)) := by
  unfold manifestCheck
  rcases hm : env.stat (Filepath.join d "go.mod") with ⟨mT⟩ | ⟨⟩ | ⟨⟩ <;>
    simp [hm, goSumCheck_fst]
  split
  · simp_all
  · rw [goSumCheck_fst]
    constructor
    · exact fun h => Or.inr h
    · rintro (hlt | h)
      · exact absurd hlt (by omega)
      · exact h

/-- C1: under a well-behaved filesystem, the staleness check reports stale
exactly when no artifact exists at the cached path, or the source's
modification time is strictly after the artifact's, or an existing go.mod or
go.sum in the source's directory is strictly after the artifact's; equal
timestamps are not stale, a missing manifest is skipped silently, and no error
is returned. -/
theorem c1_needsRecompile_iff (env : Env) (src cb : String) (srcT : Int) (a : String)
    (hs : env.stat src = .ok srcT) (ha : env.abs src = .ok a)
    (hc : env.stat cb ≠ .errOther) :
    ((needsRecompile env src cb).1 = true ↔
      (env.stat cb = .notExist ∨
       ∃ cT, env.stat cb = .ok cT ∧
         (cT < srcT ∨
          (∃ mT, env.stat (Filepath.join (Filepath.dir a) "go.mod") = .ok mT ∧ cT < mT) ∨
          (∃ sT, env.stat (Filepath.join (Filepath.dir a) "go.sum") = .ok sT ∧ cT < sT)))) ∧
    (needsRecompile env src cb).2 = none := by
  unfold needsRecompile
  rcases hcb : env.stat cb with ⟨cT⟩ | ⟨⟩ | ⟨⟩
  · simp only [StatRes.isNotExist, Bool.false_eq_true, if_false]
    rw [hs]
    dsimp only
    rw [ha]
    dsimp only
    by_cases hlt : cT < srcT
    · simp [hlt]
    · simp only [hlt, if_false]
      constructor
      · rw [manifestCheck_fst]
        simp [hlt]
      · exact manifestCheck_no_error env (Filepath.dir a) cT
  · simp [StatRes.isNotExist]
  · exact absurd hcb hc

/-- C1 witness: in a concrete filesystem in which the source and the go.mod
modification times tie exactly with the cached artifact's and go.sum is
absent, the check reports not stale with a nil error. -/
theorem c1_needsRecompile_iff_witness :
    (needsRecompile c1Env "script.go" "/cache/bin").1 = false ∧
    (needsRecompile c1Env "script.go" "/cache/bin").2 = none := by
  have h := c1_needsRecompile_iff c1Env "script.go" "/cache/bin" 5 "/w/script.go"
    rfl rfl (by decide)
  refine ⟨?_, h.2⟩
  cases hb : (needsRecompile c1Env "script.go" "/cache/bin").1
  · rfl
  · exfalso
    rcases h.1.mp hb with h1 | ⟨cT, hcT, h2 | ⟨mT, hmT, hmlt⟩ | ⟨sT, hsT, hslt⟩⟩
    · exact absurd h1 (by decide)
    · have h5 : c1Env.stat "/cache/bin" = .ok 5 := by decide
      rw [h5] at hcT
      injection hcT with h6
      subst h6
      exact absurd h2 (by decide)
    · have h5c : c1Env.stat "/cache/bin" = .ok 5 := by decide
      rw [h5c] at hcT
      injection hcT with h6c
      subst h6c
      have h5 : c1Env.stat (Filepath.join (Filepath.dir "/w/script.go") "go.mod") = .ok 5 := by
        decide
      rw [h5] at hmT
      injection hmT with h6
      subst h6
      exact absurd hmlt (by decide)
    · have h5 : c1Env.stat (Filepath.join (Filepath.dir "/w/script.go") "go.sum") = .notExist := by
        decide
      rw [h5] at hsT
      exact StatRes.noConfusion hsT

/-! Claims C3 and C10: key derivation. -/

/-- One compression round preserves the state width. -/
theorem round_length (st : List Nat) (ki wi : Nat) :
    (SHA256.round st ki wi).length = st.length := by
  unfold SHA256.round
  split <;> simp_all

/-- All compression rounds preserve the state width. -/
theorem foldl_round_length (l : List (Nat × Nat)) (st : List Nat) :
    (l.foldl (fun s kw => SHA256.round s kw.1 kw.2) st).length = st.length := by
  induction l generalizing st with
  | nil => rfl
  | cons kw rest ih => rw [List.foldl_cons, ih, round_length]

/-- Compressing one block preserves the hash state width. -/
theorem compressBlock_length (h block : List Nat) :
    (SHA256.compressBlock h block).length = h.length := by
  unfold SHA256.compressBlock
  simp [foldl_round_length, List.length_zip]

/-- Compressing any sequence of blocks preserves the hash state width. -/
theorem foldl_compress_length (blocks : List (List Nat)) (h : List Nat) :
    (blocks.foldl SHA256.compressBlock h).length = h.length := by
  induction blocks generalizing h with
  | nil => rfl
  | cons b rest ih => rw [List.foldl_cons, ih, compressBlock_length]

/-- SHA-256 is a fixed-length digest: the output is always 32 bytes. -/
theorem sum256_length (msg : List Nat) : (SHA256.sum256 msg).length = 32 := by
  unfold SHA256.sum256
  rw [List.length_flatten, List.map_map]
  have hc : (List.length ∘ SHA256.word4bytes) = fun _ : Nat => 4 := by
    funext w
    rfl
  rw [hc, List.map_const', List.sum_replicate, smul_eq_mul, foldl_compress_length]
  rfl

/-- Characters of a constructed string are its list. -/
theorem string_mk_data (l : List Char) : (String.mk l).data = l := rfl

/-- Hex encoding yields two characters per byte. -/
theorem hexEncode_data_length (bs : List Nat) : (hexEncode bs).data.length = 2 * bs.length := by
  unfold hexEncode
  rw [string_mk_data, List.length_flatten, List.map_map]
  have hc : (List.length ∘ hexByte) = fun _ : Nat => 2 := by
    funext b
    rfl
  rw [hc, List.map_const', List.sum_replicate, smul_eq_mul]
  omega

/-- Hex digits of values below 16 are hexadecimal characters. -/
theorem hexDigit_mem (n : Nat) (h : n < 16) : hexDigit n ∈ hexChars := by
  have hall : ∀ m, m < 16 → hexDigit m ∈ hexChars := by decide
  exact hall n h

/-- Every character the hex encoding emits is a hexadecimal character. -/
theorem hexEncode_mem (bs : List Nat) (c : Char) (h : c ∈ (hexEncode bs).data) :
    c ∈ hexChars := by
  unfold hexEncode at h
  rw [string_mk_data] at h
  rcases List.mem_flatten.mp h with ⟨l, hl, hcl⟩
  rcases List.mem_map.mp hl with ⟨b, hb, rfl⟩
  unfold hexByte at hcl
  simp only [List.mem_cons, List.not_mem_nil, or_false] at hcl
  rcases hcl with rfl | rfl
  · exact hexDigit_mem _ (Nat.mod_lt _ (by norm_num))
  · exact hexDigit_mem _ (Nat.mod_lt _ (by norm_num))

/-- Cache directory resolution only reads the configuration inputs. -/
theorem getCacheDir_congr (env1 env2 : Env) (hf : env1.cacheDirFlag = env2.cacheDirFlag)
    (hg : env1.grunCacheEnv = env2.grunCacheEnv) (hh : env1.homeDir = env2.homeDir) :
    getCacheDir env1 = getCacheDir env2 := by
  unfold getCacheDir
  rw [hf, hg, hh]

/-- Key derivation only reads the path resolution and the configuration. -/
theorem getCachedBinaryPath_congr (env1 env2 : Env) (src : String)
    (habs : env1.abs src = env2.abs src) (hf : env1.cacheDirFlag = env2.cacheDirFlag)
    (hg : env1.grunCacheEnv = env2.grunCacheEnv) (hh : env1.homeDir = env2.homeDir) :
    getCachedBinaryPath env1 src = getCachedBinaryPath env2 src := by
  unfold getCachedBinaryPath
  rw [habs, getCacheDir_congr env1 env2 hf hg hh]

/-- C3: key derivation returns the cache directory joined with the source's
base filename minus its extension, a dash separator, and the first 16
hexadecimal characters of a cryptographic digest of the UTF-8 bytes of the
absolute path; the digest component is exactly 16 hexadecimal characters, and
the key is a pure deterministic function, identical across any two runs that
resolve the path the same way under the same configuration. -/
theorem c3_cache_key (env : Env) (src a : String) (ha : env.abs src = .ok a) :
    getCachedBinaryPath env src =
      .ok (Filepath.join (getCacheDir env)
        ((if Filepath.ext (Filepath.base src) = ".go"
          then (Filepath.base src).dropRight (Filepath.ext (Filepath.base src)).length
          else Filepath.base src) ++ "-" ++ specDigest16 a)) ∧
    (specDigest16 a).length = 16 ∧
    (∀ c ∈ (specDigest16 a).data, c ∈ hexChars) ∧
    (∀ env2, env2.abs src = env.abs src → env2.cacheDirFlag = env.cacheDirFlag →
      env2.grunCacheEnv = env.grunCacheEnv → env2.homeDir = env.homeDir →
      getCachedBinaryPath env2 src = getCachedBinaryPath env src) := by
  refine ⟨?_, ?_, ?_, ?_⟩
  · unfold getCachedBinaryPath specDigest16
    rw [ha]
  · have h64 : (hexEncode (SHA256.sum256 (strBytes a))).data.length = 64 := by
      rw [hexEncode_data_length, sum256_length]
    unfold specDigest16
    simp [String.length, string_mk_data, List.length_take, h64]
  · intro c hcmem
    unfold specDigest16 at hcmem
    rw [string_mk_data] at hcmem
    exact hexEncode_mem _ c (List.take_subset 16 _ hcmem)
  · intro env2 h1 h2 h3 h4
    exact getCachedBinaryPath_congr env2 env src h1 h2 h3 h4

/-- C3 witness: key derivation evaluated at a concrete path has a
16-character digest component. -/
theorem c3_cache_key_witness : (specDigest16 "/w/script.go").length = 16 :=
  (c3_cache_key baseEnv "script.go" "/w/script.go" rfl).2.1

/-- C10: key derivation touches no filesystem content: two environments that
agree on path resolution and cache configuration but differ arbitrarily in
every file's existence and contents produce the same key; the derivation
succeeds whenever the path resolves; and two distinct spellings naming the
same underlying file through a symlink get different keys, since the syntactic
absolute paths differ. -/
theorem c10_key_filesystem_independent (env1 env2 : Env) (src : String)
    (habs : env1.abs src = env2.abs src)
    (hf : env1.cacheDirFlag = env2.cacheDirFlag)
    (hg : env1.grunCacheEnv = env2.grunCacheEnv)
    (hh : env1.homeDir = env2.homeDir) :
    getCachedBinaryPath env1 src = getCachedBinaryPath env2 src ∧
    (∀ a, env1.abs src = .ok a → keyOk (getCachedBinaryPath env1 src) = true) ∧
    getCachedBinaryPath symEnv "/a/s.go" ≠ getCachedBinaryPath symEnv "/b/s.go" := by
  refine ⟨getCachedBinaryPath_congr env1 env2 src habs hf hg hh, ?_, ?_⟩
  · intro a ha
    unfold getCachedBinaryPath
    rw [ha]
    rfl
  · decide

/-- C10 witness: two concrete environments, one with every file missing and
unreadable, produce the identical key for the same source path. -/
theorem c10_key_filesystem_independent_witness :
    getCachedBinaryPath c10EnvA "script.go" = getCachedBinaryPath baseEnv "script.go" :=
  (c10_key_filesystem_independent c10EnvA baseEnv "script.go" rfl rfl rfl rfl).1

end Grun
